import Mathlib

/-!
Verification development for the interview-practice application
(`src/main.py`).  The session state machine, the question-generation
response parsing and the report score averaging are embedded as
executable Lean definitions and their specified properties are proved.

Modelling conventions:
* `st.session_state` becomes the structure `SessionState`; the field
  names follow the Python attribute names.
* Each user-triggered action of `interview_page` (start, voice answer,
  submit, skip, generate report, reset) becomes a function on
  `SessionState`.  The external LLM calls are oracles: their results are
  passed in as parameters.  Actions whose button is not rendered in the
  current phase are identity (a button that is not on the page cannot
  fire).
* Python `str.strip` and `str.split` are implemented on character lists
  (`py_strip`, `py_split_nl`) so that every definition evaluates inside
  the kernel.
* Python truthiness of a string (`if user_answer:`) is modelled by
  inequality with the empty string.
-/

set_option maxRecDepth 4000

/-- Outcome of a Gemini `generate_content` call as far as the parsing code
can observe it: a usable text, a content block (`not response.parts`), or a
raised exception. -/
inductive ModelOutcome where
  | ok (text : String)
  | blocked
  | error
deriving Repr, DecidableEq

/-- Python `str.isspace` on one character: the whitespace set of CPython
for ASCII text (space, tab, newline, carriage return, vertical tab, form
feed). -/
def py_isspace (c : Char) : Bool :=
  c = ' ' || c = '\t' || c = '\n' || c = '\r' || c = '\x0b' || c = '\x0c'

/-- Python `str.strip()` on a character list: drop whitespace from both
ends. -/
def py_strip_chars (cs : List Char) : List Char :=
  ((cs.dropWhile py_isspace).reverse.dropWhile py_isspace).reverse

/-- Python `str.strip()`. -/
def py_strip (s : String) : String :=
  String.mk (py_strip_chars s.toList)

/-- Python `str.split('\n')` on a character list: split at every newline,
keeping empty pieces (so the result is always non-empty). -/
def py_split_nl : List Char → List (List Char)
  | [] => [[]]
  | c :: rest =>
      let r := py_split_nl rest
      if c = '\n' then [] :: r
      else
        match r with
        | [] => [[c]]
        | h :: t => (c :: h) :: t

/-- Python `s.split('\n')` as strings. -/
def py_lines (s : String) : List String :=
  (py_split_nl s.toList).map String.mk

/-- Sentinel returned by `generate_llm_questions_gemini` when the response
is blocked (src/main.py line 47). -/
def blockSentinel : String := "Could not generate questions due to a block."

/-- Sentinel returned by `generate_llm_questions_gemini` when the API call
raises (src/main.py line 55). -/
def errorSentinel : String :=
  "Could not generate questions. Check your API key and internet connection."

/-- `generate_llm_questions_gemini` (src/main.py lines 28-55), modelled on
the response outcome.  The prompt construction is elided: it does not
affect the returned list.  On success the code strips the whole text,
splits on newlines, strips each line, drops lines that are empty after
stripping and truncates to `num_questions`. -/
def generate_llm_questions_gemini (response : ModelOutcome) (num_questions : Nat) :
    List String :=
  match response with
  | .ok text =>
      let questions_text := py_strip text
      let questions :=
        ((py_lines questions_text).map py_strip).filter (fun q => q != "")
      questions.take num_questions
  | .blocked => List.replicate num_questions blockSentinel
  | .error => List.replicate num_questions errorSentinel

/-- One entry of `st.session_state.all_responses` (src/main.py lines 259
and 268): a Python dict with keys `question`, `answer`, `feedback`. -/
structure AnswerRecord where
  question : String
  answer : String
  feedback : String
deriving Repr, DecidableEq

/-- The session state of `interview_page` (src/main.py lines 203-209),
with the Python attribute names. -/
structure SessionState where
  interview_started : Bool
  all_responses : List AnswerRecord
  current_question_idx : Nat
  questions : List String
  current_user_answer : String
  final_report : Option String
deriving Repr, DecidableEq

/-- The state created by the initialization block (src/main.py
lines 203-209) on first render, and hence also right after a reset. -/
def initialState : SessionState :=
  { interview_started := false
    all_responses := []
    current_question_idx := 0
    questions := []
    current_user_answer := ""
    final_report := none }

/-- The four phases of the session state machine described by the spec.
They are derived from the state exactly as `interview_page` chooses the
screen to render: Setup when the interview has not started, InProgress
while the index is inside the question list, and the summary screen is
Summary or Reported according to whether `final_report` is set. -/
inductive Phase where
  | Setup
  | InProgress
  | Summary
  | Reported
deriving Repr, DecidableEq

/-- The phase of a session state (branch structure of src/main.py
lines 212, 234, 274 and 284). -/
def phase (s : SessionState) : Phase :=
  if s.interview_started = true then
    if s.current_question_idx < s.questions.length then Phase.InProgress
    else if s.final_report = none then Phase.Summary
    else Phase.Reported
  else Phase.Setup

/-- Substring test: Python `pat in s` on strings. -/
def contains_substr (s pat : String) : Bool :=
  s.toList.tails.any (fun t => pat.toList.isPrefixOf t)

/-- The success test of the start handler (src/main.py line 224):
`st.session_state.questions and "Could not generate" not in
st.session_state.questions[0]`. -/
def generation_ok (questions : List String) : Bool :=
  match questions with
  | [] => false
  | q0 :: _ => ! contains_substr q0 "Could not generate"

/-- The start-interview handler (src/main.py lines 218-231).  `genResult`
is the list returned by `generate_llm_questions_gemini`; the code stores
it in `st.session_state.questions` (line 220) before testing it
(line 224).  Returns the new state and whether `st.error` was shown.
The button exists only on the setup screen, so the action is identity on
a started session. -/
def start_interview (s : SessionState) (genResult : List String) :
    SessionState × Bool :=
  if s.interview_started = true then (s, false)
  else
    let s1 := { s with questions := genResult }
    if generation_ok genResult = true then
      ({ s1 with interview_started := true
                 current_question_idx := 0
                 all_responses := []
                 final_report := none }, false)
    else (s1, true)

/-- Result of a button handler: the new state, whether a Gemini call was
made, and whether a warning was shown. -/
structure ActionResult where
  state : SessionState
  gatewayCalled : Bool
  warned : Bool
deriving Repr, DecidableEq

/-- The submit-answer handler (src/main.py lines 252-264).  `feedback` is
the oracle result of `evaluate_llm_answer_gemini`; it is only consulted
(`gatewayCalled = true`) when the answer is non-empty.  The button exists
only on the interview screen (`interview_started` and index in range). -/
def submit_answer (s : SessionState) (user_answer feedback : String) :
    ActionResult :=
  if s.interview_started = true ∧ s.current_question_idx < s.questions.length then
    if user_answer ≠ "" then
      { state :=
          { s with
            all_responses := s.all_responses ++
              [{ question := s.questions.getD s.current_question_idx ""
                 answer := user_answer
                 feedback := feedback }]
            current_question_idx := s.current_question_idx + 1
            current_user_answer := "" }
        gatewayCalled := true
        warned := false }
    else { state := s, gatewayCalled := false, warned := true }
  else { state := s, gatewayCalled := false, warned := false }

/-- The skip-question handler (src/main.py lines 267-271): appends the
sentinel record and advances, with no Gemini call.  The button exists
only on the interview screen. -/
def skip_question (s : SessionState) : ActionResult :=
  if s.interview_started = true ∧ s.current_question_idx < s.questions.length then
    { state :=
        { s with
          all_responses := s.all_responses ++
            [{ question := s.questions.getD s.current_question_idx ""
               answer := "Skipped"
               feedback := "No feedback." }]
          current_question_idx := s.current_question_idx + 1
          current_user_answer := "" }
      gatewayCalled := false
      warned := false }
  else { state := s, gatewayCalled := false, warned := false }

/-- The voice-answer handler (src/main.py lines 247-249): stores the
transcription result (oracle `text`) in `current_user_answer`.  The
button exists only on the interview screen. -/
def voice_answer (s : SessionState) (text : String) : SessionState :=
  if s.interview_started = true ∧ s.current_question_idx < s.questions.length then
    { s with current_user_answer := text }
  else s

/-- The generate-report handler (src/main.py lines 284-290): the button is
rendered only on the summary screen (`interview_started` and index out of
range) and only while `final_report is None`; it stores the oracle
`report` from `generate_final_report_gemini`. -/
def generate_report (s : SessionState) (report : String) : ActionResult :=
  if s.interview_started = true ∧ ¬ s.current_question_idx < s.questions.length
     ∧ s.final_report = none then
    { state := { s with final_report := some report }
      gatewayCalled := true
      warned := false }
  else { state := s, gatewayCalled := false, warned := false }

/-- Whether the reset button is rendered: src/main.py line 296 sits inside
the summary-screen `else` branch (line 274), so the button exists exactly
when the interview has started and the index is past the questions. -/
def reset_available (s : SessionState) : Prop :=
  s.interview_started = true ∧ ¬ s.current_question_idx < s.questions.length

instance (s : SessionState) : Decidable (reset_available s) := by
  unfold reset_available
  infer_instance

/-- The reset handler (src/main.py lines 296-300): deletes every
`st.session_state` key, after which the next rerun re-creates
`initialState`; identity when the button is not rendered. -/
def reset_session (s : SessionState) : SessionState :=
  if s.interview_started = true ∧ ¬ s.current_question_idx < s.questions.length then
    initialState
  else s

/-- One user action dispatched to `interview_page`, with the oracle
results of any external calls it makes. -/
inductive UserAction where
  | start (genResult : List String)
  | voiceAnswer (text : String)
  | submit (answer feedback : String)
  | skip
  | genReport (text : String)
  | reset
deriving Repr

/-- One step of the session state machine: the state change performed by
`interview_page` for one user action. -/
def interview_page_step (s : SessionState) : UserAction → SessionState
  | .start genResult => (start_interview s genResult).1
  | .voiceAnswer t => voice_answer s t
  | .submit a fb => (submit_answer s a fb).state
  | .skip => (skip_question s).state
  | .genReport r => (generate_report s r).state
  | .reset => reset_session s

/-- A session state is reachable when some sequence of user actions
produces it from the freshly initialized state. -/
def Reachable (s : SessionState) : Prop :=
  ∃ acts : List UserAction, s = acts.foldl interview_page_step initialState

/-- Numeric value of a digit string, as Python `int` reads it. -/
def digitsToNat (ds : List Char) : Nat :=
  ds.foldl (fun acc c => acc * 10 + (c.toNat - 48)) 0

/-- Match of the regular expression `Score: (\d+)/10` anchored at the
start of `cs`: the literal `"Score: "`, then one or more digits (greedy;
no backtracking can help since `/` is not a digit), then the literal
`"/10"`.  Returns the captured integer. -/
def score_match_at (cs : List Char) : Option Nat :=
  if ("Score: ".toList).isPrefixOf cs then
    let rest := cs.drop ("Score: ".toList).length
    let ds := rest.takeWhile Char.isDigit
    let r := rest.dropWhile Char.isDigit
    if ds ≠ [] ∧ ("/10".toList).isPrefixOf r then some (digitsToNat ds)
    else none
  else none

/-- Python `re.search(r"Score: (\d+)/10", s)`: the leftmost match, tried
at every start position from left to right. -/
def score_search : List Char → Option Nat
  | [] => none
  | c :: rest =>
      match score_match_at (c :: rest) with
      | some n => some n
      | none => score_search rest

/-- First `Score: <integer>/10` occurrence in a feedback string
(src/main.py line 103). -/
def extract_score (feedback : String) : Option Nat :=
  score_search feedback.toList

/-- One iteration of the scoring loop of `generate_final_report_gemini`
(src/main.py lines 102-106): accumulate `(total_score, num_answered)`. -/
def report_score_step (acc : Nat × Nat) (r : AnswerRecord) : Nat × Nat :=
  match extract_score r.feedback with
  | some k => (acc.1 + k, acc.2 + 1)
  | none => acc

/-- The pair `(total_score, num_answered)` computed by the loop of
`generate_final_report_gemini` over the records. -/
def report_score_stats (rs : List AnswerRecord) : Nat × Nat :=
  rs.foldl report_score_step (0, 0)

/-- Nearest integer to the fraction `x / n` (for `n > 0`), ties rounded
to the even integer.  This is the rounding IEEE-754 uses on its binary
grid and the rounding CPython's decimal formatting uses on digits; all
values here are non-negative, so `Nat` arithmetic is exact. -/
def round_half_even_div (x n : Nat) : Nat :=
  if 2 * (x % n) < n then x / n
  else if n < 2 * (x % n) then x / n + 1
  else if x / n % 2 = 0 then x / n else x / n + 1

/-- Number of binary digits of the second argument (`0` for `0`),
computed with the first argument as structural-recursion fuel: one digit
is produced per halving, so any fuel at least the number itself gives the
exact bit length. -/
def bitlen_go : Nat → Nat → Nat
  | _, 0 => 0
  | 0, _ + 1 => 0
  | fuel + 1, m + 1 => bitlen_go fuel ((m + 1) / 2) + 1

/-- Number of binary digits of `n` (`0` for `0`). -/
def bitlen (n : Nat) : Nat := bitlen_go n n

/-- `⌊log₂ (t / n)⌋` for `t, n > 0`: the bit-length difference gives the
exponent up to one, and the comparison `t / n ≥ 2 ^ e0` (cleared of
denominators, with only one of the two shifts non-zero) settles it. -/
def ratio_log2 (t n : Nat) : Int :=
  let e0 : Int := (bitlen t : Int) - (bitlen n : Int)
  if n * 2 ^ e0.toNat ≤ t * 2 ^ (-e0).toNat then e0 else e0 - 1

/-- The exponent of the IEEE-754 binary64 rounding grid for a positive
value whose floor-log₂ is `E`: normal values keep 52 fractional bits,
subnormal values bottom out at `2 ^ (-1074)`. -/
def grid_exp (E : Int) : Int := max (E - 52) (-1074)

/-- Python `t / n` on non-negative ints (binary64 true division, which
CPython correctly rounds to nearest, ties to even) followed by
`f"{·:.1f}"` (which CPython correctly rounds to one decimal digit, again
ties to even): the printed value in tenths.  `none` models the two cases
with no numeric output: `n = 0` raises `ZeroDivisionError`, and a
quotient at or above `2 ^ 1024` overflows to `inf`.  The quotient is
first rounded to the binary64 grid (`M * 2 ^ g` with `M` the rounded
mantissa), then the exact dyadic value `10 * M * 2 ^ g` is rounded to an
integer number of tenths. -/
def float_div_tenths (t n : Nat) : Option Nat :=
  if n = 0 then none
  else if t = 0 then some 0
  else
    let g := grid_exp (ratio_log2 t n)
    let M := round_half_even_div (t * 2 ^ (-g).toNat) (n * 2 ^ g.toNat)
    if 2 ^ (1024 - g).toNat ≤ M then none
    else some (round_half_even_div (10 * M * 2 ^ g.toNat) (2 ^ (-g).toNat))

/-- The average score as it appears in the report-synthesis prompt
(src/main.py lines 110-111: `avg_score = (total_score / num_answered) if
num_answered > 0 else 0`, printed with `{avg_score:.1f}`), represented
exactly in tenths: the printed text is this value divided by ten (and
`none` is the overflow case that prints `inf`).  With no parseable score
the code formats the int `0`, printing `0.0`. -/
def report_prompt_avg_tenths (rs : List AnswerRecord) : Option Nat :=
  if 0 < (report_score_stats rs).2 then
    float_div_tenths (report_score_stats rs).1 (report_score_stats rs).2
  else some 0

/-- The scores of the records that contain a parseable score, in order:
the claim's description of which records contribute. -/
def claim_scores (rs : List AnswerRecord) : List Nat :=
  rs.filterMap (fun r => extract_score r.feedback)

/-- The claim's average, in tenths: sum of parseable scores over their
count, truncated to one decimal place, and `0` when no record has a
parseable score. -/
def claim_avg_truncated_tenths (rs : List AnswerRecord) : Nat :=
  if claim_scores rs = [] then 0
  else 10 * (claim_scores rs).sum / (claim_scores rs).length

/-- The claim's average rounded (half to even) instead of truncated: the
amended description of the prompt value, in tenths. -/
def claim_avg_rounded_tenths (rs : List AnswerRecord) : Nat :=
  if claim_scores rs = [] then 0
  else round_half_even_div (10 * (claim_scores rs).sum) (claim_scores rs).length

/-- The original claim's reading of the question parsing: the response's
non-empty lines, in their original order (no stripping of the
individual lines). -/
def raw_nonempty_lines (text : String) : List String :=
  (py_lines text).filter (fun q => q != "")

/-- The amended claim's description of the successful parse, written as a
direct recursion: each line is stripped and kept when something
remains. -/
def trimmed_nonempty_lines : List String → List String
  | [] => []
  | l :: ls =>
      if py_strip l = "" then trimmed_nonempty_lines ls
      else py_strip l :: trimmed_nonempty_lines ls

/-- An advance action as the spec quantifies over them: a skip (`none`)
or a submit of an answer together with the evaluation oracle's
feedback. -/
def advance_action : Option (String × String) → UserAction
  | none => UserAction.skip
  | some p => UserAction.submit p.1 p.2

/-- An advance is valid when a submitted answer is non-empty (a skip
always is). -/
def valid_advance : Option (String × String) → Bool
  | none => true
  | some p => p.1 != ""

/-- A concrete in-progress session: a freshly started two-question
interview. -/
def demoInProgress : SessionState :=
  (start_interview initialState ["Q1", "Q2"]).1

/-- A concrete summary-phase session: a one-question interview whose only
question was skipped. -/
def demoSummary : SessionState :=
  (skip_question (start_interview initialState ["Q1"]).1).state

/-- A concrete reported-phase session: `demoSummary` after the report was
generated. -/
def demoReported : SessionState :=
  (generate_report demoSummary "Report text").state

/-- The spec's three-question run: start with three generated questions,
submit answers to questions 1 and 2, skip question 3. -/
def demoThreeQuestionRun : SessionState :=
  [UserAction.start ["Q1", "Q2", "Q3"], UserAction.submit "a1" "f1",
   UserAction.submit "a2" "f2", UserAction.skip].foldl
    interview_page_step initialState

/-- A record whose feedback carries `Score: 7/10`, in the exact shape the
evaluation prompt requests. -/
def rec7 : AnswerRecord :=
  { question := "q1", answer := "a1"
    feedback := "Feedback: ok\nScore: 7/10\nImprovement Suggestion: none" }

/-- A record whose feedback carries `Score: 8/10`. -/
def rec8 : AnswerRecord :=
  { question := "q2", answer := "a2"
    feedback := "Feedback: fine\nScore: 8/10\nImprovement Suggestion: none" }

/-- A skipped record: its feedback has no parseable score. -/
def recSkipped : AnswerRecord :=
  { question := "q3", answer := "Skipped", feedback := "No feedback." }

lemma phase_inProgress_iff (s : SessionState) :
    phase s = Phase.InProgress ↔
      s.interview_started = true ∧ s.current_question_idx < s.questions.length := by
  by_cases h1 : s.interview_started = true <;>
    by_cases h2 : s.current_question_idx < s.questions.length <;>
    by_cases h3 : s.final_report = none <;>
    simp [phase, h1, h2, h3]

lemma phase_summary_iff (s : SessionState) :
    phase s = Phase.Summary ↔
      s.interview_started = true ∧ ¬ s.current_question_idx < s.questions.length
        ∧ s.final_report = none := by
  by_cases h1 : s.interview_started = true <;>
    by_cases h2 : s.current_question_idx < s.questions.length <;>
    by_cases h3 : s.final_report = none <;>
    simp [phase, h1, h2, h3]

lemma phase_reported_iff (s : SessionState) :
    phase s = Phase.Reported ↔
      s.interview_started = true ∧ ¬ s.current_question_idx < s.questions.length
        ∧ s.final_report ≠ none := by
  by_cases h1 : s.interview_started = true <;>
    by_cases h2 : s.current_question_idx < s.questions.length <;>
    by_cases h3 : s.final_report = none <;>
    simp [phase, h1, h2, h3]

/-- The inductive invariant of the session state machine: the index
counts the records, the index never passes the question list, a report
exists only at the very end of a started interview, and an unstarted
session carries no interview data. -/
def SessionInv (s : SessionState) : Prop :=
  s.current_question_idx = s.all_responses.length ∧
  s.current_question_idx ≤ s.questions.length ∧
  (s.final_report ≠ none →
    s.interview_started = true ∧ s.current_question_idx = s.questions.length) ∧
  (s.interview_started = false →
    s.current_question_idx = 0 ∧ s.all_responses = [] ∧ s.final_report = none)

lemma sessionInv_initial : SessionInv initialState := by
  refine ⟨rfl, Nat.le_refl 0, ?_, ?_⟩ <;> simp [initialState]

lemma sessionInv_step (s : SessionState) (a : UserAction) (h : SessionInv s) :
    SessionInv (interview_page_step s a) := by
  obtain ⟨h1, h2, h3, h4⟩ := h
  cases a with
  | start genResult =>
      simp only [interview_page_step, start_interview]
      by_cases hs : s.interview_started = true
      · simp only [hs, if_pos rfl]
        exact ⟨h1, h2, h3, h4⟩
      · have hs' : s.interview_started = false := by
          cases hb : s.interview_started
          · rfl
          · exact absurd hb hs
        obtain ⟨hz, hr, hf⟩ := h4 hs'
        by_cases hok : generation_ok genResult = true
        · simp only [hs, if_neg, hok, if_pos rfl, reduceIte]
          refine ⟨by simp, by simp, by simp, by simp⟩
        · simp only [hs, hok, reduceIte]
          refine ⟨h1, ?_, ?_, ?_⟩
          · show s.current_question_idx ≤ genResult.length
            simp [hz]
          · intro hrep
            exact absurd hf (by simpa using hrep)
          · intro _
            exact ⟨hz, hr, hf⟩
  | voiceAnswer t =>
      simp only [interview_page_step, voice_answer]
      split
      · exact ⟨h1, h2, h3, h4⟩
      · exact ⟨h1, h2, h3, h4⟩
  | submit ans fb =>
      simp only [interview_page_step, submit_answer]
      split
      · split
        · rename_i hg _
          obtain ⟨hgs, hgl⟩ := hg
          refine ⟨?_, ?_, ?_, ?_⟩
          · show s.current_question_idx + 1 =
              (s.all_responses ++
                [({ question := s.questions.getD s.current_question_idx ""
                    answer := ans, feedback := fb } : AnswerRecord)]).length
            simp [h1]
          · show s.current_question_idx + 1 ≤ s.questions.length
            omega
          · intro hrep
            have hrep' : s.final_report ≠ none := hrep
            exact absurd (h3 hrep').2 (Nat.ne_of_lt hgl)
          · intro hns
            have hns' : s.interview_started = false := hns
            simp [hns'] at hgs
        · exact ⟨h1, h2, h3, h4⟩
      · exact ⟨h1, h2, h3, h4⟩
  | skip =>
      simp only [interview_page_step, skip_question]
      split
      · rename_i hg
        obtain ⟨hgs, hgl⟩ := hg
        refine ⟨?_, ?_, ?_, ?_⟩
        · show s.current_question_idx + 1 =
            (s.all_responses ++
              [({ question := s.questions.getD s.current_question_idx ""
                  answer := "Skipped", feedback := "No feedback." } : AnswerRecord)]).length
          simp [h1]
        · show s.current_question_idx + 1 ≤ s.questions.length
          omega
        · intro hrep
          have hrep' : s.final_report ≠ none := hrep
          exact absurd (h3 hrep').2 (Nat.ne_of_lt hgl)
        · intro hns
          have hns' : s.interview_started = false := hns
          simp [hns'] at hgs
      · exact ⟨h1, h2, h3, h4⟩
  | genReport r =>
      simp only [interview_page_step, generate_report]
      split
      · rename_i hg
        obtain ⟨hgs, hgl, hgn⟩ := hg
        refine ⟨h1, h2, ?_, ?_⟩
        · intro _
          exact ⟨hgs, Nat.le_antisymm h2 (Nat.le_of_not_lt hgl)⟩
        · intro hns
          have hns' : s.interview_started = false := hns
          simp [hns'] at hgs
      · exact ⟨h1, h2, h3, h4⟩
  | reset =>
      simp only [interview_page_step, reset_session]
      split
      · exact sessionInv_initial
      · exact ⟨h1, h2, h3, h4⟩

lemma sessionInv_foldl (acts : List UserAction) (s : SessionState)
    (h : SessionInv s) : SessionInv (acts.foldl interview_page_step s) := by
  induction acts generalizing s with
  | nil => exact h
  | cons a as ih => exact ih _ (sessionInv_step s a h)

lemma reachable_sessionInv (s : SessionState) (h : Reachable s) : SessionInv s := by
  obtain ⟨acts, rfl⟩ := h
  exact sessionInv_foldl acts initialState sessionInv_initial

lemma report_score_stats_go (rs : List AnswerRecord) :
    ∀ t n : Nat, rs.foldl report_score_step (t, n) =
      (t + (claim_scores rs).sum, n + (claim_scores rs).length) := by
  induction rs with
  | nil => intro t n; simp [claim_scores]
  | cons r rs ih =>
      intro t n
      simp only [List.foldl_cons]
      cases h : extract_score r.feedback with
      | none =>
          simp [report_score_step, h, ih, claim_scores, List.filterMap_cons]
      | some k =>
          simp only [report_score_step, h, ih, claim_scores, List.filterMap_cons]
          refine Prod.ext ?_ ?_ <;> simp <;> omega

/-- The loop of `generate_final_report_gemini` computes exactly the sum
and the count of the parseable scores. -/
lemma report_score_stats_eq (rs : List AnswerRecord) :
    report_score_stats rs = ((claim_scores rs).sum, (claim_scores rs).length) := by
  have h := report_score_stats_go rs 0 0
  simpa [report_score_stats] using h

/-- Stripping each line and keeping the non-empty results (the Python
list comprehension) agrees with the direct recursion used by the amended
claim. -/
lemma map_strip_filter_eq (ls : List String) :
    (ls.map py_strip).filter (fun q => q != "") = trimmed_nonempty_lines ls := by
  induction ls with
  | nil => rfl
  | cons l ls ih =>
      simp only [List.map_cons, List.filter_cons, trimmed_nonempty_lines]
      by_cases h : py_strip l = ""
      · simp [h, ih]
      · simp [h, ih]

/-- C1: in every reachable session state the current question index
equals the number of accumulated answer records; moreover, while the
interview is in progress, submitting a non-empty answer and skipping
each append exactly one record and increment the index by exactly one,
which is how the invariant is maintained across every advance. -/
theorem currentIndex_eq_records_length (s : SessionState) (hs : Reachable s) :
    s.current_question_idx = s.all_responses.length ∧
    (∀ a fb, a ≠ "" → phase s = Phase.InProgress →
      (submit_answer s a fb).state.all_responses.length = s.all_responses.length + 1 ∧
      (submit_answer s a fb).state.current_question_idx = s.current_question_idx + 1) ∧
    (phase s = Phase.InProgress →
      (skip_question s).state.all_responses.length = s.all_responses.length + 1 ∧
      (skip_question s).state.current_question_idx = s.current_question_idx + 1) := by
  obtain ⟨h1, h2, h3, h4⟩ := reachable_sessionInv s hs
  refine ⟨h1, ?_, ?_⟩
  · intro a fb ha hp
    obtain ⟨hgs, hgl⟩ := (phase_inProgress_iff s).mp hp
    rw [submit_answer, if_pos (And.intro hgs hgl), if_pos ha]
    exact ⟨by simp, rfl⟩
  · intro hp
    obtain ⟨hgs, hgl⟩ := (phase_inProgress_iff s).mp hp
    rw [skip_question, if_pos (And.intro hgs hgl)]
    exact ⟨by simp, rfl⟩

theorem currentIndex_eq_records_length_witness :
    demoInProgress.current_question_idx = demoInProgress.all_responses.length ∧
    (skip_question demoInProgress).state.all_responses.length =
      demoInProgress.all_responses.length + 1 := by
  have h := currentIndex_eq_records_length demoInProgress
    ⟨[UserAction.start ["Q1", "Q2"]], rfl⟩
  exact ⟨h.1, (h.2.2 (by decide)).1⟩

/-- On the bounded domain that matters for this application — at most
ten scoring records (the question count is capped at 10) whose scores
total at most 100 — the full binary64 pipeline (correctly rounded float
division, then correctly rounded one-decimal formatting) agrees exactly
with round-half-even of the exact rational `t / n` to tenths, checked
exhaustively.  Outside this domain the two differ (see
`float_div_tenths_is_binary64`). -/
lemma float_div_tenths_small : ∀ t < 101, ∀ n < 11, 1 ≤ n →
    float_div_tenths t n = some (round_half_even_div (10 * t) n) := by
  decide

/-- The float pipeline is not exact rational rounding in general: the
binary64 value of `7 / 20` is slightly below `0.35`, so Python prints
`0.3`, while exact half-even rounding of `7 / 20` to tenths gives `4`. -/
lemma float_div_tenths_is_binary64 :
    float_div_tenths 7 20 = some 3 ∧ round_half_even_div 70 20 = 4 := by
  decide

/-- C2 (amended): the average score placed in the report-synthesis
prompt, represented in tenths, equals the sum of the first
`Score: <integer>/10` match of each record's feedback divided by the
number of records containing a match and rounded — not truncated — to
one decimal place (ties to even), whenever at most ten records carry a
parseable score and those scores total at most 100; this covers every
session the application can produce while the model emits scores in the
0–10 range its prompt requests.  (In general the prompt value is the
binary64 quotient formatted by Python's `:.1f`, which can fall below the
exact rounding, e.g. for twenty records totalling 7.)  Records without a
match count in neither numerator nor denominator, the average is 0.0
when no record matches, and a single record with `Score: 7/10` yields
7.0. -/
theorem report_prompt_avg_spec (rs : List AnswerRecord)
    (hcount : (claim_scores rs).length ≤ 10)
    (htotal : (claim_scores rs).sum ≤ 100) :
    report_prompt_avg_tenths rs = some (claim_avg_rounded_tenths rs) ∧
    report_prompt_avg_tenths [rec7] = some 70 ∧
    report_prompt_avg_tenths [recSkipped] = some 0 := by
  refine ⟨?_, by decide, by decide⟩
  have hst := report_score_stats_eq rs
  by_cases h : claim_scores rs = []
  · simp [report_prompt_avg_tenths, claim_avg_rounded_tenths, hst, h]
  · have hl : 0 < (claim_scores rs).length := List.length_pos.mpr h
    have hb := float_div_tenths_small (claim_scores rs).sum (by omega)
      (claim_scores rs).length (by omega) hl
    simp [report_prompt_avg_tenths, claim_avg_rounded_tenths, hst, h, hl, hb]

theorem report_prompt_avg_spec_witness :
    report_prompt_avg_tenths [rec7, rec8] =
      some (claim_avg_rounded_tenths [rec7, rec8]) := by
  exact (report_prompt_avg_spec [rec7, rec8] (by decide) (by decide)).1

theorem report_prompt_avg_not_truncated :
    report_prompt_avg_tenths [rec7, rec8, rec8] = some 77 ∧
    claim_avg_truncated_tenths [rec7, rec8, rec8] = 76 ∧
    (77 : Nat) ≠ 76 := by
  decide

/-- C3 (amended): when question generation fails or is blocked the start
transition is aborted — the phase remains Setup, the interview-progress
fields are untouched and an error is surfaced — but, contrary to the
original claim, the failed generation result (the sentinel strings) is
stored in the session's `questions` field by the assignment that
precedes the check. -/
theorem failed_generation_aborts_start (s : SessionState) (qs : List String)
    (hns : s.interview_started = false) (hbad : generation_ok qs = false) :
    ((start_interview s qs).1.interview_started = false ∧
     phase (start_interview s qs).1 = Phase.Setup) ∧
    (start_interview s qs).2 = true ∧
    (start_interview s qs).1.all_responses = s.all_responses ∧
    (start_interview s qs).1.current_question_idx = s.current_question_idx ∧
    (start_interview s qs).1.final_report = s.final_report ∧
    (start_interview s qs).1.questions = qs := by
  simp [start_interview, hns, hbad, phase]

theorem failed_generation_aborts_start_witness :
    (start_interview initialState
      (generate_llm_questions_gemini ModelOutcome.blocked 3)).1.interview_started
      = false ∧
    (start_interview initialState
      (generate_llm_questions_gemini ModelOutcome.blocked 3)).2 = true := by
  have h := failed_generation_aborts_start initialState
    (generate_llm_questions_gemini ModelOutcome.blocked 3) (by decide) (by decide)
  exact ⟨h.1.1, h.2.1⟩

theorem failed_generation_stores_sentinels :
    (start_interview initialState
      (generate_llm_questions_gemini ModelOutcome.error 5)).1.interview_started
      = false ∧
    (start_interview initialState
      (generate_llm_questions_gemini ModelOutcome.error 5)).1.questions
      = List.replicate 5 errorSentinel ∧
    List.replicate 5 errorSentinel ≠ ([] : List String) := by
  decide

/-- C4 (amended): the reset action is rendered only on the summary
screen, so it is available exactly in the Summary and Reported phases —
not in InProgress — and whenever it is available, invoking it
unconditionally discards all session data and returns the state to
`initialState`, indistinguishable from initial startup. -/
theorem reset_only_from_summary_screen (s : SessionState) :
    (phase s = Phase.Summary ∨ phase s = Phase.Reported →
       reset_available s ∧ reset_session s = initialState) ∧
    (phase s = Phase.InProgress → ¬ reset_available s ∧ reset_session s = s) := by
  constructor
  · intro h
    have hg : s.interview_started = true ∧
        ¬ s.current_question_idx < s.questions.length := by
      rcases h with h | h
      · obtain ⟨a, b, -⟩ := (phase_summary_iff s).mp h
        exact ⟨a, b⟩
      · obtain ⟨a, b, -⟩ := (phase_reported_iff s).mp h
        exact ⟨a, b⟩
    exact ⟨hg, by rw [reset_session, if_pos hg]⟩
  · intro h
    obtain ⟨ha, hb⟩ := (phase_inProgress_iff s).mp h
    have hng : ¬ (s.interview_started = true ∧
        ¬ s.current_question_idx < s.questions.length) := fun hc => hc.2 hb
    exact ⟨hng, by rw [reset_session, if_neg hng]⟩

theorem reset_only_from_summary_screen_witness :
    (reset_available demoSummary ∧ reset_session demoSummary = initialState) ∧
    (reset_available demoReported ∧ reset_session demoReported = initialState) := by
  exact ⟨(reset_only_from_summary_screen demoSummary).1 (Or.inl (by decide)),
    (reset_only_from_summary_screen demoReported).1 (Or.inr (by decide))⟩

theorem reset_unavailable_while_in_progress :
    Reachable demoInProgress ∧
    phase demoInProgress = Phase.InProgress ∧
    ¬ reset_available demoInProgress ∧
    reset_session demoInProgress = demoInProgress ∧
    demoInProgress ≠ initialState := by
  exact ⟨⟨[UserAction.start ["Q1", "Q2"]], rfl⟩, by decide, by decide, by decide,
    by decide⟩

/-- C5: in an in-progress session, submitting an empty answer is
rejected with no state change at all, no evaluation call to the LLM
gateway, and a warning surfaced to the user. -/
theorem empty_answer_rejected (s : SessionState) (fb : String)
    (h : phase s = Phase.InProgress) :
    (submit_answer s "" fb).state = s ∧
    (submit_answer s "" fb).gatewayCalled = false ∧
    (submit_answer s "" fb).warned = true := by
  obtain ⟨hgs, hgl⟩ := (phase_inProgress_iff s).mp h
  rw [submit_answer, if_pos (And.intro hgs hgl), if_neg (by simp)]
  exact ⟨rfl, rfl, rfl⟩

theorem empty_answer_rejected_witness :
    (submit_answer demoInProgress "" "some feedback").state = demoInProgress ∧
    (submit_answer demoInProgress "" "some feedback").gatewayCalled = false ∧
    (submit_answer demoInProgress "" "some feedback").warned = true := by
  exact empty_answer_rejected demoInProgress "some feedback" (by decide)

lemma advances_reach_summary_aux (advs : List (Option (String × String))) :
    ∀ s : SessionState, s.interview_started = true → s.final_report = none →
      (∀ x ∈ advs, valid_advance x = true) →
      s.current_question_idx + advs.length = s.questions.length →
      phase ((advs.map advance_action).foldl interview_page_step s)
        = Phase.Summary := by
  induction advs with
  | nil =>
      intro s hst hrep _ hlen
      simp only [List.length_nil, Nat.add_zero] at hlen
      simp only [List.map_nil, List.foldl_nil]
      exact (phase_summary_iff s).mpr ⟨hst, by omega, hrep⟩
  | cons x advs ih =>
      intro s hst hrep hval hlen
      have hlen' : s.current_question_idx + (advs.length + 1) = s.questions.length := by
        simpa [List.length_cons] using hlen
      have hlt : s.current_question_idx < s.questions.length := by omega
      have hg : s.interview_started = true ∧
          s.current_question_idx < s.questions.length := ⟨hst, hlt⟩
      have hval' : ∀ y ∈ advs, valid_advance y = true :=
        fun y hy => hval y (List.mem_cons_of_mem x hy)
      cases x with
      | none =>
          show phase ((advs.map advance_action).foldl interview_page_step
            (skip_question s).state) = Phase.Summary
          rw [skip_question, if_pos hg]
          exact ih _ hst hrep hval'
            (by show s.current_question_idx + 1 + advs.length = s.questions.length
                omega)
      | some p =>
          have hp : p.1 ≠ "" := by
            have := hval (some p) (List.mem_cons_self _ _)
            simpa [valid_advance] using this
          show phase ((advs.map advance_action).foldl interview_page_step
            (submit_answer s p.1 p.2).state) = Phase.Summary
          rw [submit_answer, if_pos hg, if_pos hp]
          exact ih _ hst hrep hval'
            (by show s.current_question_idx + 1 + advs.length = s.questions.length
                omega)

/-- C6: starting from a freshly started session whose generation
succeeded, after exactly as many advance actions (submits of non-empty
answers and skips, in any combination) as there are questions, the
session phase is Summary.  The transition is automatic: `phase` is a
function of the state, with no separate user action involved. -/
theorem advances_reach_summary (qs : List String)
    (advs : List (Option (String × String)))
    (hok : generation_ok qs = true)
    (hval : ∀ x ∈ advs, valid_advance x = true)
    (hlen : advs.length = qs.length) :
    phase ((advs.map advance_action).foldl interview_page_step
      (start_interview initialState qs).1) = Phase.Summary := by
  have hstart : (start_interview initialState qs).1 =
      { interview_started := true, all_responses := [], current_question_idx := 0,
        questions := qs, current_user_answer := "", final_report := none } := by
    rw [start_interview, if_neg (by simp [initialState]), if_pos hok]
    rfl
  rw [hstart]
  exact advances_reach_summary_aux advs _ rfl rfl hval (by simpa using hlen)

theorem advances_reach_summary_witness :
    phase (([some ("a1", "f1"), some ("a2", "f2"),
        (none : Option (String × String))].map advance_action).foldl
      interview_page_step
      (start_interview initialState ["Q1", "Q2", "Q3"]).1) = Phase.Summary := by
  exact advances_reach_summary ["Q1", "Q2", "Q3"]
    [some ("a1", "f1"), some ("a2", "f2"), none] (by decide) (by decide) (by decide)

/-- C7: in every reachable state the final report is only present once
the index has reached the end of the question list, and once a report is
stored a further generate-report request is a no-op: the state (hence
the stored report) is unchanged and no gateway call is made.  Together
with the fact that the report action is the only writer of
`final_report`, the report is set at most once per session. -/
theorem final_report_write_once (s : SessionState) :
    (Reachable s → s.final_report ≠ none →
       s.interview_started = true ∧
       s.current_question_idx = s.questions.length) ∧
    (∀ r r', s.final_report = some r' →
       (generate_report s r).state = s ∧
       (generate_report s r).gatewayCalled = false) := by
  constructor
  · intro hs hrep
    exact (reachable_sessionInv s hs).2.2.1 hrep
  · intro r r' hr
    have hng : ¬ (s.interview_started = true ∧
        ¬ s.current_question_idx < s.questions.length ∧ s.final_report = none) := by
      rintro ⟨-, -, hn⟩
      simp [hr] at hn
    rw [generate_report, if_neg hng]
    exact ⟨rfl, rfl⟩

theorem final_report_write_once_witness :
    ((generate_report demoReported "Another report").state = demoReported ∧
     (generate_report demoReported "Another report").gatewayCalled = false) ∧
    demoReported.current_question_idx = demoReported.questions.length := by
  have h := final_report_write_once demoReported
  exact ⟨h.2 "Another report" "Report text" (by decide),
    (h.1 ⟨[UserAction.start ["Q1"], UserAction.skip,
      UserAction.genReport "Report text"], rfl⟩ (by decide)).2⟩

/-- C8: while the interview is in progress the skip action is always
allowed: it makes no gateway call, appends a record with sentinel answer
`"Skipped"` and sentinel feedback `"No feedback."` for the current
question, and increments the index by one.  In the spec's concrete
three-question run (submit questions 1 and 2, skip question 3) the
result has three records, the third has answer `"Skipped"`, and the
phase is Summary. -/
theorem skip_appends_sentinel_record :
    (∀ s : SessionState, phase s = Phase.InProgress →
       (skip_question s).gatewayCalled = false ∧
       (skip_question s).state.all_responses =
         s.all_responses ++
           [({ question := s.questions.getD s.current_question_idx ""
               answer := "Skipped"
               feedback := "No feedback." } : AnswerRecord)] ∧
       (skip_question s).state.current_question_idx = s.current_question_idx + 1) ∧
    (demoThreeQuestionRun.all_responses.length = 3 ∧
     (demoThreeQuestionRun.all_responses.getD 2 ⟨"", "", ""⟩).answer = "Skipped" ∧
     phase demoThreeQuestionRun = Phase.Summary) := by
  constructor
  · intro s hp
    obtain ⟨hgs, hgl⟩ := (phase_inProgress_iff s).mp hp
    rw [skip_question, if_pos (And.intro hgs hgl)]
    exact ⟨rfl, rfl, rfl⟩
  · decide

theorem skip_appends_sentinel_record_witness :
    (skip_question demoInProgress).gatewayCalled = false ∧
    (skip_question demoInProgress).state.all_responses =
      demoInProgress.all_responses ++
        [({ question := demoInProgress.questions.getD
              demoInProgress.current_question_idx ""
            answer := "Skipped"
            feedback := "No feedback." } : AnswerRecord)] ∧
    (skip_question demoInProgress).state.current_question_idx =
      demoInProgress.current_question_idx + 1 := by
  exact skip_appends_sentinel_record.1 demoInProgress (by decide)

/-- C9 (amended): on a successful model response the returned questions
are the response's lines each stripped of surrounding whitespace, with
the lines that are whitespace-only omitted, in their original order and
truncated to at most `count` elements (the raw lines themselves are not
returned); on a content block or a call failure the result is `count`
copies of the fixed sentinel for that failure mode. -/
theorem generate_questions_parse (text : String) (n : Nat) :
    generate_llm_questions_gemini (ModelOutcome.ok text) n =
      (trimmed_nonempty_lines (py_lines (py_strip text))).take n ∧
    generate_llm_questions_gemini ModelOutcome.blocked n =
      List.replicate n blockSentinel ∧
    generate_llm_questions_gemini ModelOutcome.error n =
      List.replicate n errorSentinel := by
  refine ⟨?_, rfl, rfl⟩
  show (((py_lines (py_strip text)).map py_strip).filter (fun q => q != "")).take n = _
  rw [map_strip_filter_eq]

theorem generate_questions_strips_lines :
    generate_llm_questions_gemini (ModelOutcome.ok "Q1 \nQ2") 2 = ["Q1", "Q2"] ∧
    (raw_nonempty_lines "Q1 \nQ2").take 2 = ["Q1 ", "Q2"] ∧
    (["Q1", "Q2"] : List String) ≠ ["Q1 ", "Q2"] := by
  decide

/-- C10: in every reachable state the number of answer records (and the
current index, which equals it) never exceeds the number of generated
questions; both submit and skip are identity once the index has reached
the end of the question list, so no advance can push past it. -/
theorem records_never_exceed_questions (s : SessionState) (hs : Reachable s) :
    s.all_responses.length ≤ s.questions.length ∧
    s.current_question_idx ≤ s.questions.length ∧
    (∀ a fb, ¬ s.current_question_idx < s.questions.length →
      (submit_answer s a fb).state = s ∧ (skip_question s).state = s) := by
  obtain ⟨h1, h2, -, -⟩ := reachable_sessionInv s hs
  refine ⟨by omega, h2, ?_⟩
  intro a fb hge
  have hng : ¬ (s.interview_started = true ∧
      s.current_question_idx < s.questions.length) := fun h => hge h.2
  constructor
  · rw [submit_answer, if_neg hng]
  · rw [skip_question, if_neg hng]

theorem records_never_exceed_questions_witness :
    demoSummary.all_responses.length ≤ demoSummary.questions.length ∧
    (skip_question demoSummary).state = demoSummary := by
  have h := records_never_exceed_questions demoSummary
    ⟨[UserAction.start ["Q1"], UserAction.skip], rfl⟩
  exact ⟨h.1, (h.2.2 "a" "f" (by decide)).2⟩
